import Mathlib

/-!
Verification development for the treasury-intelligence pipeline.

The definitions below are shallow embeddings of the Python source:
`scraper.py` (StepStone/Jobs.ch extraction, company cleaning, CSV merge),
`email_parser.py` (LinkedIn email extraction, company cleaning, CSV merge)
and `lead_scoring.py` (scoring engine, signal detector, prospect list).
Strings stay strings; pandas DataFrames become lists of records;
`datetime.now()` becomes an explicit integer day parameter; writing a CSV
becomes a function from the old file contents and the rows to the new
file contents.
-/

namespace Treasury

/-- Substring test on character lists: `needle` occurs contiguously in the
list.  Mirrors Python `needle in hay`. -/
def subList (needle : List Char) : List Char → Bool
  | [] => needle.isEmpty
  | c :: t => needle.isPrefixOf (c :: t) || subList needle t

/-- Python `needle in hay` on strings. -/
def strContains (hay needle : String) : Bool :=
  subList needle.data hay.data

/-- Python `s.startswith(pre)`. -/
def strStartsWith (s pre : String) : Bool :=
  pre.data.isPrefixOf s.data

/-- Python `\s` character class (ASCII part, which is all the pipeline uses). -/
def isPySpace (c : Char) : Bool :=
  c = ' ' || c = '\t' || c = '\n' || c = '\r' || c = Char.ofNat 11 || c = Char.ofNat 12

/-- Lowercase a string (ASCII case folding, as Python `.lower()` acts on the
ASCII keywords the pipeline matches). -/
def strLower (s : String) : String :=
  ⟨s.data.map Char.toLower⟩

/-- Split a character list at whitespace, keeping the non-empty chunks. -/
def wsTokenChunks (l : List Char) : List (List Char) :=
  (l.foldr
    (fun c acc =>
      if isPySpace c then [] :: acc
      else
        match acc with
        | [] => [[c]]
        | t :: ts => (c :: t) :: ts)
    []).filter (fun t => ¬ t.isEmpty)

/-- Whitespace-separated tokens of a string (empty tokens removed). -/
def wsTokens (s : String) : List String :=
  (wsTokenChunks s.data).map (fun l => ⟨l⟩)

/-- Python `re.sub(r"\s+", " ", s).strip()`: collapse whitespace runs to a
single space and strip the ends. -/
def collapseWs (s : String) : String :=
  " ".intercalate (wsTokens s)

/-- The fixed legal-entity suffix list of both `_clean_company` variants,
lowercased: `\s+(GmbH|AG|SE|KGaA|Ltd|Inc|Corp|SA)\.?` anchored at the end. -/
def legalSuffixes : List String :=
  ["gmbh", "ag", "se", "kgaa", "ltd", "inc", "corp", "sa"]

/-- Does a final token match `(GmbH|AG|SE|KGaA|Ltd|Inc|Corp|SA)\.?` up to case? -/
def isLegalSuffixToken (t : String) : Bool :=
  let l := strLower t
  legalSuffixes.contains l ||
    (l.data.getLast? = some '.' && legalSuffixes.contains ⟨l.data.dropLast⟩)

/-- `re.sub(r"\s+(GmbH|AG|SE|KGaA|Ltd|Inc|Corp|SA)\.?\s*$", "", s)` applied to
an already whitespace-collapsed string, expressed on its token list: the
suffix must be preceded by whitespace, so it is exactly a final extra token. -/
def stripLegalSuffix (toks : List String) : List String :=
  match toks.getLast? with
  | some t => if 2 ≤ toks.length && isLegalSuffixToken t then toks.dropLast else toks
  | none => toks

/-- Rest of the list after the first `')'`, or `none` when there is none. -/
def dropUntilClose : List Char → Option (List Char)
  | [] => none
  | c :: t => if c = ')' then some t else dropUntilClose t

/-- Fuel-driven worker for `stripParenthetical` (the fuel makes the recursion
structural, so that the function evaluates inside the kernel; every recursive
call shortens the list, so `l.length` fuel is always enough). -/
def stripParenAux : Nat → List Char → List Char
  | 0, l => l
  | _ + 1, [] => []
  | fuel + 1, c :: t =>
    if c = '(' then
      match dropUntilClose t with
      | some rest => stripParenAux fuel (rest.dropWhile isPySpace)
      | none => c :: stripParenAux fuel t
    else if isPySpace c then
      match (c :: t).dropWhile isPySpace with
      | '(' :: u =>
        match dropUntilClose u with
        | some rest => stripParenAux fuel (rest.dropWhile isPySpace)
        | none => c :: stripParenAux fuel t
      | _ => c :: stripParenAux fuel t
    else
      c :: stripParenAux fuel t

/-- `re.sub(r"\s*\(.*?\)\s*", "", s)`: delete every non-greedy parenthetical
together with the whitespace around it (the source applies this to the whole
string, so text on both sides of a parenthetical is glued together). -/
def stripParenthetical (l : List Char) : List Char :=
  stripParenAux l.length l

/-- The two phrases of `re.sub(r"\s*(hiring now|we're hiring).*", "", s)`,
lowercase (the apostrophe is written via its code point). -/
def hiringPhrases : List (List Char) :=
  ["hiring now".data,
   ['w', 'e', Char.ofNat 39, 'r', 'e', ' ', 'h', 'i', 'r', 'i', 'n', 'g']]

/-- Does one of the hiring phrases start (case-insensitively) at the head? -/
def hiringPhraseAt (l : List Char) : Bool :=
  hiringPhrases.any (fun p => p.isPrefixOf (l.map Char.toLower))

/-- Truncate at the first occurrence of a hiring phrase; `.*` in the source
pattern deletes everything that follows, and the surrounding whitespace is
removed by the final strip. -/
def stripHiring : List Char → List Char
  | [] => []
  | c :: t => if hiringPhraseAt (c :: t) then [] else c :: stripHiring t

/-- Python `s.strip()` for the pipeline's whitespace. -/
def pyStrip (s : String) : String :=
  ⟨(s.data.dropWhile isPySpace).reverse.dropWhile isPySpace |>.reverse⟩

/-- `TreasuryWebScraper._clean_company` from `scraper.py`: empty input is
`"Unknown"`; collapse whitespace; strip a trailing legal-entity suffix; delete
parentheticals; truncate at a hiring-now phrase; a result that strips to empty
becomes `"Unknown"`. -/
def clean_company_scraper (company : String) : String :=
  if company = "" then "Unknown"
  else
    let s1 := " ".intercalate (stripLegalSuffix (wsTokens company))
    let s2 : String := ⟨stripHiring (stripParenthetical s1.data)⟩
    let s3 := pyStrip s2
    if s3 = "" then "Unknown" else s3

/-- The noise-phrase deny list of `email_parser.py`. -/
def noisePhrases : List String :=
  ["this company is actively hiring", "promoted", "hiring now",
   "actively hiring", "see more jobs", "view job", "easy apply", "apply",
   "school alumni", "connections"]

/-- `EmailJobParser._clean_company` from `email_parser.py`: collapse
whitespace, strip a trailing legal-entity suffix, map noise phrases to the
empty string; there is no parenthetical handling and no `"Unknown"` fallback. -/
def clean_company_email (company : String) : String :=
  let s1 := " ".intercalate (stripLegalSuffix (wsTokens company))
  if noisePhrases.contains (strLower s1) then "" else s1

/-! ## The canonical job store and the scoring engine (`lead_scoring.py`)

A store row as the scoring engine sees it: `date_scraped` is a day number
(the engine only compares dates and takes min/max), the other columns are
strings. -/

/-- One row of the canonical job store, as read by `LeadScoringEngine`. -/
structure Job where
  date : Int
  company : String
  title : String
  location : String
  technologies : String
  deriving DecidableEq, Repr

/-- Fuel-driven worker for `uniqueFirst`; the fuel keeps the recursion
structural so it evaluates inside the kernel. -/
def uniqueFirstAux {α : Type} [DecidableEq α] : Nat → List α → List α
  | 0, _ => []
  | _ + 1, [] => []
  | fuel + 1, a :: t => a :: uniqueFirstAux fuel (t.filter (fun x => x ≠ a))

/-- First-occurrence deduplication, the order `pandas.unique` and `nunique`
use. -/
def uniqueFirst {α : Type} [DecidableEq α] (l : List α) : List α :=
  uniqueFirstAux l.length l

/-- The jobs of one company (`self.df[self.df['company'] == company_name]`). -/
def companyJobs (df : List Job) (companyName : String) : List Job :=
  df.filter (fun j => j.company = companyName)

/-- The five `interim_keywords` of factor 3. -/
def interim_keywords : List String :=
  ["interim", "freelance", "project", "contract", "consultant"]

/-- The six `senior_keywords` of factor 4. -/
def senior_keywords : List String :=
  ["head", "director", "senior", "lead", "principal", "chief"]

/-- Joined `technologies` column of a company's jobs
(`' '.join(company_jobs['technologies'])`). -/
def allTech (jobs : List Job) : String :=
  " ".intercalate (jobs.map (fun j => j.technologies))

/-- Joined, lowercased `title` column of a company's jobs. -/
def allTitles (jobs : List Job) : String :=
  strLower (" ".intercalate (jobs.map (fun j => j.title)))

/-- Number of jobs scraped in the trailing 30 days before `now`. -/
def recentCount (jobs : List Job) (now : Int) : Nat :=
  (jobs.filter (fun j => j.date ≥ now - 30)).length

/-- How many of the given keywords occur in the joined lowercased titles
(`sum(1 for kw in kws if kw in titles)`). -/
def keywordHits (kws : List String) (titles : String) : Nat :=
  (kws.filter (fun kw => strContains titles kw)).length

/-- Number of distinct `location` values (`nunique`). -/
def uniqueLocationCount (jobs : List Job) : Nat :=
  (uniqueFirst (jobs.map (fun j => j.location))).length

/-- `LeadScoringEngine.calculate_transformation_score`: the per-company score,
translated statement by statement (the sequential `score +=` updates become
one left-associated sum inside the final `min(100, score)`).  `df` is the
engine's whole job store, `now` the day `datetime.now()` returns. -/
def calculate_transformation_score (df : List Job) (companyName : String) (now : Int) : Nat :=
  let company_jobs := companyJobs df companyName
  if company_jobs.length = 0 then 0
  else
    let jobs_count := recentCount company_jobs now
    let tech := allTech company_jobs
    let titles := allTitles company_jobs
    let interim_count := keywordHits interim_keywords titles
    let senior_count := keywordHits senior_keywords titles
    let unique_locations := uniqueLocationCount company_jobs
    min 100
      ((if jobs_count ≥ 5 then 25
        else if jobs_count ≥ 3 then 20
        else if jobs_count ≥ 2 then 15
        else if jobs_count ≥ 1 then 10 else 0) +
       (if strContains tech "SAP S/4HANA" then 15 else 0) +
       (if strContains tech "Kyriba" then 10 else 0) +
       (if strContains tech "API" || strContains tech "Python" then 5 else 0) +
       (if interim_count ≥ 2 then 25 else if interim_count ≥ 1 then 15 else 0) +
       (if senior_count ≥ 2 then 10 else if senior_count ≥ 1 then 5 else 0) +
       (if unique_locations ≥ 3 then 10 else if unique_locations ≥ 2 then 5 else 0))

/-- `LeadScoringEngine.classify_prospect_tier` (the source pairs each tier
with an emoji-decorated action label; the emoji prefixes are omitted). -/
def classify_prospect_tier (score : Nat) : String × String :=
  if score ≥ 80 then ("Tier 1: Hot", "Immediate Outreach")
  else if score ≥ 60 then ("Tier 2: Warm", "Targeted Campaign")
  else if score ≥ 40 then ("Tier 3: Qualified", "Marketing Funnel")
  else ("Tier 4: Monitor", "Database Only")

/-! Factor functions written from the spec's scoring tables (§4.5), used to
compare the source against the spec's description. -/

/-- Spec table for hiring velocity: 0→0, 1→10, 2→15, 3–4→20, ≥5→25. -/
def spec_velocityPoints (n : Nat) : Nat :=
  if n ≥ 5 then 25 else if n ≥ 3 then 20 else if n ≥ 2 then 15
  else if n ≥ 1 then 10 else 0

/-- Spec table for the technology factor: +15 for SAP S/4HANA, +10 for Kyriba,
+5 for API or Python, additive. -/
def spec_techPoints (tech : String) : Nat :=
  (if strContains tech "SAP S/4HANA" then 15 else 0) +
  (if strContains tech "Kyriba" then 10 else 0) +
  (if strContains tech "API" || strContains tech "Python" then 5 else 0)

/-- Spec table for the job-type mix: 0→0, 1→15, ≥2→25. -/
def spec_jobTypePoints (hits : Nat) : Nat :=
  if hits ≥ 2 then 25 else if hits ≥ 1 then 15 else 0

/-- Spec table for the seniority mix: 0→0, 1→5, ≥2→10. -/
def spec_seniorityPoints (hits : Nat) : Nat :=
  if hits ≥ 2 then 10 else if hits ≥ 1 then 5 else 0

/-- Spec table for geographic spread: <2→0, 2→5, ≥3→10. -/
def spec_geoPoints (locs : Nat) : Nat :=
  if locs ≥ 3 then 10 else if locs ≥ 2 then 5 else 0

/-! ## Signal detector (`detect_transformation_signals`) -/

/-- One transformation signal (`type/confidence/duration/service/description`
dict in the source). -/
structure Signal where
  type : String
  confidence : String
  duration : String
  service : String
  description : String
  deriving DecidableEq, Repr

/-- The text the detector matches against: per-job `title + ' ' + technologies`,
joined with spaces and lowercased. -/
def signalText (jobs : List Job) : String :=
  strLower (" ".intercalate (jobs.map (fun j => j.title ++ " " ++ j.technologies)))

/-- The `tms_systems` dict of signal 3, in its iteration order. -/
def tms_systems : List (String × String) :=
  [("gtreasury", "GTreasury"), ("fis", "FIS TMS"),
   ("finastra", "Finastra"), ("bloomberg", "Bloomberg AIM")]

/-- The signal appended for one `tms_systems` entry. -/
def mkTmsSignal (systemName : String) : Signal :=
  { type := systemName ++ " Implementation", confidence := "High",
    duration := "9-12 months", service := "TMS Selection & Implementation",
    description := "Cloud TMS implementation project - " ++ systemName }

def sigS4Hana : Signal :=
  { type := "SAP S/4HANA Migration", confidence := "High",
    duration := "18-24 months",
    service := "S/4HANA Treasury Implementation & Change Management",
    description := "ERP transformation project with 2027 deadline" }

def sigKyriba : Signal :=
  { type := "Kyriba TMS Implementation", confidence := "High",
    duration := "9-12 months", service := "Cloud TMS Implementation & Training",
    description := "Moving to cloud-based treasury management system" }

def sigApi : Signal :=
  { type := "API Connectivity & Real-Time Treasury", confidence := "Medium",
    duration := "6-9 months", service := "API Integration & Treasury Automation",
    description := "Building real-time connectivity with banks and systems" }

def sigTransformation : Signal :=
  { type := "Treasury Transformation Program", confidence := "High",
    duration := "12-24 months", service := "Operating Model Design & PMO Services",
    description := "Comprehensive treasury function overhaul" }

def sigEsg : Signal :=
  { type := "ESG Treasury & Sustainable Finance", confidence := "Medium",
    duration := "6-12 months",
    service := "Sustainable Finance Framework & CSRD Compliance",
    description := "Building ESG treasury capabilities and reporting" }

def sigCashPool : Signal :=
  { type := "Cash Pooling & In-House Bank Setup", confidence := "High",
    duration := "6-12 months",
    service := "Cash Structure Optimization & IHB Implementation",
    description := "Centralizing cash and implementing in-house banking" }

def sigWorkingCapital : Signal :=
  { type := "Working Capital Optimization", confidence := "Medium",
    duration := "6-9 months",
    service := "Working Capital Advisory & Process Optimization",
    description := "Improving cash conversion cycle and supply chain finance" }

def sigFx : Signal :=
  { type := "FX & Risk Management Program", confidence := "Medium",
    duration := "6-9 months",
    service := "Risk Management Framework & Hedging Strategy",
    description := "Implementing or upgrading risk management capabilities" }

def sigAnalytics : Signal :=
  { type := "Treasury Analytics & Reporting", confidence := "Medium",
    duration := "4-6 months",
    service := "Treasury Data Warehouse & Analytics Implementation",
    description := "Building advanced analytics and executive dashboards" }

def sigBank : Signal :=
  { type := "Bank Relationship Optimization", confidence := "Medium",
    duration := "6-9 months", service := "Banking Structure Review & Optimization",
    description := "Optimizing bank relationships and connectivity" }

def sigMerger : Signal :=
  { type := "Post-Merger Treasury Integration", confidence := "High",
    duration := "12-18 months",
    service := "M&A Treasury Integration & Harmonization",
    description := "Integrating treasury functions after M&A activity" }

def sigInstant : Signal :=
  { type := "Instant Payments Implementation", confidence := "High",
    duration := "6-9 months",
    service := "Instant Payments Strategy & Implementation",
    description := "Implementing real-time payment capabilities" }

def sigSsc : Signal :=
  { type := "Treasury Shared Service Center", confidence := "High",
    duration := "12-18 months",
    service := "Shared Service Center Design & Implementation",
    description := "Building treasury shared services or center of excellence" }

def sigRpa : Signal :=
  { type := "Treasury Process Automation (RPA)", confidence := "Medium",
    duration := "4-8 months", service := "RPA Implementation & Process Automation",
    description := "Automating manual treasury processes with bots" }

def sigPolicy : Signal :=
  { type := "Treasury Policy & Governance", confidence := "Low",
    duration := "3-6 months", service := "Policy Development & Governance Framework",
    description := "Developing or updating treasury policies and procedures" }

def sigForecast : Signal :=
  { type := "Cash Forecasting Enhancement", confidence := "Medium",
    duration := "4-6 months",
    service := "Cash Forecasting Model & Process Optimization",
    description := "Improving cash forecasting accuracy and process" }

def sigOrg : Signal :=
  { type := "Treasury Organization Redesign", confidence := "High",
    duration := "6-12 months", service := "Operating Model & Organization Design",
    description := "Redesigning treasury organization structure and roles" }

/-- `LeadScoringEngine.detect_transformation_signals`, block by block: each
`if … : signals.append(…)` becomes one guarded singleton, the `tms_systems`
loop becomes a filter-map over the dict entries in iteration order. -/
def detect_transformation_signals (df : List Job) (companyName : String) : List Signal :=
  let company_jobs := companyJobs df companyName
  let all_text := signalText company_jobs
  (if strContains all_text "s/4hana" || strContains all_text "s4hana"
   then [sigS4Hana] else []) ++
  (if strContains all_text "kyriba" then [sigKyriba] else []) ++
  ((tms_systems.filter (fun p => strContains all_text p.1)).map
      (fun p => mkTmsSignal p.2)) ++
  (if strContains all_text "api" &&
      (strContains all_text "connectivity" || strContains all_text "integration" ||
       strContains all_text "real-time")
   then [sigApi] else []) ++
  (if company_jobs.length ≥ 3 &&
      ["transformation", "program", "change"].any (fun kw => strContains all_text kw)
   then [sigTransformation] else []) ++
  (if ["esg", "sustainable", "green", "csrd", "taxonomy"].any
        (fun kw => strContains all_text kw)
   then [sigEsg] else []) ++
  (if ["cash pool", "in-house bank", "ihb", "centralization"].any
        (fun kw => strContains all_text kw)
   then [sigCashPool] else []) ++
  (if ["working capital", "cash conversion", "supply chain finance", "payables",
        "receivables"].any (fun kw => strContains all_text kw)
   then [sigWorkingCapital] else []) ++
  (if ["hedge", "hedging", "forex", "currency", "commodity", "derivatives"].any
        (fun kw => strContains all_text kw)
   then [sigFx] else []) ++
  (if ["analytics", "reporting", "dashboard", "visualization", "power bi",
        "tableau"].any (fun kw => strContains all_text kw)
   then [sigAnalytics] else []) ++
  (if ["bank relationship", "banking structure", "bank connectivity", "swift"].any
        (fun kw => strContains all_text kw)
   then [sigBank] else []) ++
  (if ["integration", "merger", "acquisition", "consolidation", "harmonization"].any
        (fun kw => strContains all_text kw)
   then [sigMerger] else []) ++
  (if ["instant payment", "sepa instant", "real-time payment", "rtp"].any
        (fun kw => strContains all_text kw)
   then [sigInstant] else []) ++
  (if ["shared service", "ssc", "center of excellence", "coe", "centralization"].any
        (fun kw => strContains all_text kw)
   then [sigSsc] else []) ++
  (if ["rpa", "automation", "robotic", "bot"].any (fun kw => strContains all_text kw)
   then [sigRpa] else []) ++
  (if ["policy", "procedure", "governance", "framework", "guidelines"].any
        (fun kw => strContains all_text kw)
   then [sigPolicy] else []) ++
  (if ["forecast", "liquidity", "cash projection", "planning"].any
        (fun kw => strContains all_text kw)
   then [sigForecast] else []) ++
  (if ["organization", "org design", "restructure", "operating model",
        "target operating model", "tom"].any (fun kw => strContains all_text kw)
   then [sigOrg] else [])

/-- One detector rule: a predicate on the aggregated text and the company's
job count, and the signal it appends. -/
structure SignalRule where
  cond : String → Nat → Bool
  sig : Signal

/-- The detector's fixed ordered rule list (signal 3's dict expanded into its
four entries, in iteration order). -/
def ruleTable : List SignalRule :=
  [ ⟨fun text _ => strContains text "s/4hana" || strContains text "s4hana", sigS4Hana⟩,
    ⟨fun text _ => strContains text "kyriba", sigKyriba⟩,
    ⟨fun text _ => strContains text "gtreasury", mkTmsSignal "GTreasury"⟩,
    ⟨fun text _ => strContains text "fis", mkTmsSignal "FIS TMS"⟩,
    ⟨fun text _ => strContains text "finastra", mkTmsSignal "Finastra"⟩,
    ⟨fun text _ => strContains text "bloomberg", mkTmsSignal "Bloomberg AIM"⟩,
    ⟨fun text _ => strContains text "api" &&
      (strContains text "connectivity" || strContains text "integration" ||
       strContains text "real-time"), sigApi⟩,
    ⟨fun text n => n ≥ 3 &&
      ["transformation", "program", "change"].any (fun kw => strContains text kw),
      sigTransformation⟩,
    ⟨fun text _ => ["esg", "sustainable", "green", "csrd", "taxonomy"].any
      (fun kw => strContains text kw), sigEsg⟩,
    ⟨fun text _ => ["cash pool", "in-house bank", "ihb", "centralization"].any
      (fun kw => strContains text kw), sigCashPool⟩,
    ⟨fun text _ => ["working capital", "cash conversion", "supply chain finance",
      "payables", "receivables"].any (fun kw => strContains text kw),
      sigWorkingCapital⟩,
    ⟨fun text _ => ["hedge", "hedging", "forex", "currency", "commodity",
      "derivatives"].any (fun kw => strContains text kw), sigFx⟩,
    ⟨fun text _ => ["analytics", "reporting", "dashboard", "visualization",
      "power bi", "tableau"].any (fun kw => strContains text kw), sigAnalytics⟩,
    ⟨fun text _ => ["bank relationship", "banking structure", "bank connectivity",
      "swift"].any (fun kw => strContains text kw), sigBank⟩,
    ⟨fun text _ => ["integration", "merger", "acquisition", "consolidation",
      "harmonization"].any (fun kw => strContains text kw), sigMerger⟩,
    ⟨fun text _ => ["instant payment", "sepa instant", "real-time payment",
      "rtp"].any (fun kw => strContains text kw), sigInstant⟩,
    ⟨fun text _ => ["shared service", "ssc", "center of excellence", "coe",
      "centralization"].any (fun kw => strContains text kw), sigSsc⟩,
    ⟨fun text _ => ["rpa", "automation", "robotic", "bot"].any
      (fun kw => strContains text kw), sigRpa⟩,
    ⟨fun text _ => ["policy", "procedure", "governance", "framework",
      "guidelines"].any (fun kw => strContains text kw), sigPolicy⟩,
    ⟨fun text _ => ["forecast", "liquidity", "cash projection", "planning"].any
      (fun kw => strContains text kw), sigForecast⟩,
    ⟨fun text _ => ["organization", "org design", "restructure", "operating model",
      "target operating model", "tom"].any (fun kw => strContains text kw), sigOrg⟩ ]

/-- Rule-table reading of the detector: keep each rule whose predicate fires,
in table order, and emit its signal. -/
def detectByTable (text : String) (jobCount : Nat) : List Signal :=
  (ruleTable.filter (fun r => r.cond text jobCount)).map (fun r => r.sig)

/-! ## Prospect list (`analyze_all_companies` / `save_prospects_csv`) -/

/-- Minimum of a date column (`.min()`; the engine only calls it on the
non-empty job list of a company that occurs in the store). -/
def minDate : List Int → Int
  | [] => 0
  | d :: t => t.foldl min d

/-- Maximum of a date column (`.max()`). -/
def maxDate : List Int → Int
  | [] => 0
  | d :: t => t.foldl max d

/-- One entry of `self.company_scores`. -/
structure Prospect where
  company : String
  score : Nat
  tier : String
  action : String
  total_jobs : Nat
  jobs_last_30_days : Nat
  locations : Nat
  signals : List Signal
  signal_count : Nat
  primary_signal : String
  first_seen : Int
  last_activity : Int
  deriving DecidableEq, Repr

/-- The dict `analyze_all_companies` appends for one qualifying company. -/
def mkProspect (df : List Job) (now : Int) (c : String) : Prospect :=
  let company_jobs := companyJobs df c
  let score := calculate_transformation_score df c now
  let signals := detect_transformation_signals df c
  let tierAction := classify_prospect_tier score
  { company := c
    score := score
    tier := tierAction.1
    action := tierAction.2
    total_jobs := company_jobs.length
    jobs_last_30_days := recentCount company_jobs now
    locations := uniqueLocationCount company_jobs
    signals := signals
    signal_count := signals.length
    primary_signal := match signals with | [] => "None" | s :: _ => s.type
    first_seen := minDate (company_jobs.map (fun j => j.date))
    last_activity := maxDate (company_jobs.map (fun j => j.date)) }

/-- Insert one prospect into a list sorted by non-increasing score, before the
first entry whose score does not exceed it. -/
def insertByScore (x : Prospect) : List Prospect → List Prospect
  | [] => [x]
  | y :: t => if y.score ≤ x.score then x :: y :: t else y :: insertByScore x t

/-- `list.sort(key=score, reverse=True)`: a stable sort by non-increasing
score (Python's sort is stable; insertion from the right realizes the same
arrangement). -/
def sortByScoreDesc (l : List Prospect) : List Prospect :=
  l.foldr insertByScore []

/-- The unsorted prospect list: companies in `df['company'].unique()` order,
those with `score < 20` skipped, each mapped to its `company_scores` entry. -/
def prospectRows (df : List Job) (now : Int) : List Prospect :=
  ((uniqueFirst (df.map (fun j => j.company))).filter
      (fun c => ¬ calculate_transformation_score df c now < 20)).map
    (mkProspect df now)

/-- `LeadScoringEngine.analyze_all_companies`: build the prospect rows, then
sort them by score, descending. -/
def analyze_all_companies (df : List Job) (now : Int) : List Prospect :=
  sortByScoreDesc (prospectRows df now)

/-- One row of `prospects.csv` as `save_prospects_csv` flattens it. -/
structure ProspectCsvRow where
  company : String
  score : Nat
  tier : String
  action : String
  total_jobs : Nat
  jobs_last_30_days : Nat
  locations : Nat
  signal_count : Nat
  primary_signal : String
  all_signals : String
  first_seen : Int
  last_activity : Int
  deriving DecidableEq, Repr

/-- The flattening `save_prospects_csv` applies to one prospect. -/
def flattenProspect (p : Prospect) : ProspectCsvRow :=
  { company := p.company
    score := p.score
    tier := p.tier
    action := p.action
    total_jobs := p.total_jobs
    jobs_last_30_days := p.jobs_last_30_days
    locations := p.locations
    signal_count := p.signals.length
    primary_signal := match p.signals with | [] => "None" | s :: _ => s.type
    all_signals := " | ".intercalate (p.signals.map (fun s => s.type))
    first_seen := p.first_seen
    last_activity := p.last_activity }

/-- `LeadScoringEngine.save_prospects_csv`, as a function from the previous
contents of `prospects.csv` and the in-memory prospect list to the file's new
contents: with no prospects the function returns before writing and the old
file survives; otherwise the rows are written in list order, replacing the
file. -/
def save_prospects_csv (oldFile : List ProspectCsvRow) (prospects : List Prospect) :
    List ProspectCsvRow :=
  if prospects.isEmpty then oldFile else prospects.map flattenProspect

/-! ## Canonical store rows and the two `save_to_csv` merges -/

/-- One row of `treasury_jobs.csv` (all columns as the CSV holds them; columns
a writer does not set are empty strings). -/
structure Row where
  date_scraped : String
  source : String
  company : String
  title : String
  location : String
  country : String
  url : String
  technologies : String
  deriving DecidableEq, Repr

/-- `pandas.DataFrame.drop_duplicates(subset=key, keep="last")`: keep a row
exactly when no later row has the same key. -/
def dropDupLast {α κ : Type} [DecidableEq κ] (key : α → κ) : List α → List α
  | [] => []
  | x :: xs =>
    if xs.any (fun y => key y = key x) then dropDupLast key xs
    else x :: dropDupLast key xs

/-- The composite key of the scraper's second deduplication pass. -/
def keyCTL (r : Row) : String × String × String :=
  (r.company, r.title, r.location)

/-- The full-tuple key of the email parser's deduplication pass. -/
def key5 (r : Row) : String × String × String × String × String :=
  (r.source, r.company, r.title, r.location, r.url)

/-- `TreasuryWebScraper.save_to_csv` with an existing file: concatenate the
old rows and the new batch, drop duplicate `url`s keeping the last, then drop
duplicate `(company, title, location)` triples keeping the last. -/
def scraper_save_to_csv (existing batch : List Row) : List Row :=
  dropDupLast keyCTL (dropDupLast (fun r => r.url) (existing ++ batch))

/-- `EmailJobParser.save_to_csv` with an existing file: concatenate and drop
duplicates of the 5-tuple `(source, company, title, location, url)`, keeping
the last. -/
def email_save_to_csv (existing batch : List Row) : List Row :=
  dropDupLast key5 (existing ++ batch)

/-- Modelled from the spec (§4.3), for comparison with the source: the
identity key is the normalized `url` when non-empty, else the composite
`(source, company, title, location)`. -/
def specIdentityKey (r : Row) : Sum String (String × String × String × String) :=
  if r.url ≠ "" then Sum.inl r.url else Sum.inr (r.source, r.company, r.title, r.location)

/-- Modelled from the spec (§4.3), for comparison with the source: last-write-wins
merge over `specIdentityKey`. -/
def specMerge (existing batch : List Row) : List Row :=
  dropDupLast specIdentityKey (existing ++ batch)

/-! ## Card acceptance in the extractors (`scraper.py`) -/

/-- The per-card logic of `scrape_stepstone_de`, given what the selectors
returned: element texts (`none` when no element matched), the search location
used as the location default, and the link `href`.  The candidate is appended
only when `title != "Unknown" and company != "Unknown" and job_url`. -/
def stepstoneCandidate (dateStr : String) (titleTxt companyTxt locationTxt : Option String)
    (searchLocation : String) (href : Option String) : Option Row :=
  let title := match titleTxt with | some t => t | none => "Unknown"
  let company := clean_company_scraper (match companyTxt with | some c => c | none => "Unknown")
  let job_location := match locationTxt with | some l => l | none => searchLocation
  let job_url := match href with
    | some h => if strStartsWith h "http" then h else "https://www.stepstone.de" ++ h
    | none => ""
  if title ≠ "Unknown" ∧ company ≠ "Unknown" ∧ job_url ≠ "" then
    some { date_scraped := dateStr, source := "StepStone.de", company := company,
           title := title, location := job_location, country := "", url := job_url,
           technologies := "" }
  else none

/-- The per-card logic of `scrape_jobs_ch`, given the helper extractors'
results (`title`/`company` are the strings `_extract_title_jobs_ch` and
`_extract_company_jobs_ch` return, `locationTxt` what
`_extract_location_jobs_ch` found).  The candidate is appended when
`title != "Unknown" and job_url` — the company is not checked. -/
def jobsChCandidate (dateStr : String) (title company : String)
    (locationTxt : Option String) (href : Option String) : Option Row :=
  let job_url := match href with
    | some h => if strStartsWith h "http" then h else "https://www.jobs.ch" ++ h
    | none => ""
  let location := match locationTxt with
    | some l => if l = "" then "Switzerland" else l
    | none => "Switzerland"
  if title ≠ "Unknown" ∧ job_url ≠ "" then
    some { date_scraped := dateStr, source := "Jobs.ch",
           company := if company ≠ "" then clean_company_scraper company else "Unknown",
           title := title, location := location, country := "Switzerland",
           url := job_url, technologies := "" }
  else none

/-! ## Concrete data used by witnesses and counterexamples -/

/-- A job with a uniform date shift — used to express that the score depends
on the clock only through the age of each job. -/
def shiftJob (δ : Int) (j : Job) : Job :=
  { j with date := j.date + δ }

/-- The worked example of spec §8: six jobs in the trailing 30 days, one
S/4HANA and one Kyriba technology tag, two interim/contract titles, two
Head/Director titles, three distinct locations. -/
def exampleStore : List Job :=
  [ { date := 100, company := "Acme", title := "Interim Treasury Manager",
      location := "Berlin", technologies := "SAP S/4HANA" },
    { date := 100, company := "Acme", title := "Treasury Analyst Contract",
      location := "Berlin", technologies := "Kyriba" },
    { date := 99, company := "Acme", title := "Head of Treasury",
      location := "Muenchen", technologies := "" },
    { date := 99, company := "Acme", title := "Treasury Director",
      location := "Muenchen", technologies := "" },
    { date := 98, company := "Acme", title := "Treasury Accountant",
      location := "Hamburg", technologies := "" },
    { date := 98, company := "Acme", title := "Cash Manager",
      location := "Hamburg", technologies := "" } ]

/-- A single job whose 30-day-window membership flips between two run dates. -/
def borderlineJob : Job :=
  { date := 0, company := "A", title := "x", location := "L", technologies := "" }

/-- A canonical-store row from the email pipeline. -/
def rowA : Row :=
  { date_scraped := "2026-10-01", source := "LinkedIn", company := "Acme",
    title := "Treasury Analyst", location := "Berlin", country := "Germany",
    url := "https://www.linkedin.com/jobs/view/1", technologies := "" }

/-- A later posting with the same url as `rowA` but a different title. -/
def rowB : Row :=
  { rowA with title := "Treasury Manager", date_scraped := "2026-10-02" }

/-- The same record as `rowA` except for the scrape date, so it has the same
5-tuple key. -/
def rowA2 : Row :=
  { rowA with date_scraped := "2026-10-03" }

/-- A row with a second, distinct identity. -/
def rowC : Row :=
  { date_scraped := "2026-10-01", source := "StepStone.de", company := "Beta",
    title := "Cash Manager", location := "Hamburg", country := "Germany",
    url := "https://www.stepstone.de/2", technologies := "" }

/-- The record the StepStone extractor produces for a fully resolved card. -/
def acceptedStepstoneRow : Row :=
  { date_scraped := "2026-10-12", source := "StepStone.de", company := "Acme",
    title := "Treasury Manager", location := "Deutschland", country := "",
    url := "https://www.stepstone.de/j/1", technologies := "" }

/-- The record the Jobs.ch extractor produces for a fully resolved card. -/
def acceptedJobsChRow : Row :=
  { date_scraped := "2026-10-12", source := "Jobs.ch", company := "Acme",
    title := "Treasury Manager", location := "Switzerland",
    country := "Switzerland", url := "https://www.jobs.ch/en/jobs/9",
    technologies := "" }

/-- A stale prospect CSV row, standing for the previous run's file contents. -/
def staleProspectRow : ProspectCsvRow :=
  { company := "Oldco", score := 55, tier := "Tier 3: Qualified",
    action := "Marketing Funnel", total_jobs := 2, jobs_last_30_days := 1,
    locations := 1, signal_count := 0, primary_signal := "None",
    all_signals := "", first_seen := 10, last_activity := 20 }

/-! ## Helper lemmas: `uniqueFirst` -/

theorem uniqueFirstAux_congr {α : Type} [DecidableEq α] :
    ∀ (f₁ f₂ : Nat) (l : List α), l.length ≤ f₁ → l.length ≤ f₂ →
      uniqueFirstAux f₁ l = uniqueFirstAux f₂ l := by
  intro f₁
  induction f₁ with
  | zero =>
    intro f₂ l h₁ _
    have : l = [] := List.length_eq_zero.mp (Nat.le_zero.mp h₁)
    subst this
    cases f₂ <;> simp [uniqueFirstAux]
  | succ f ih =>
    intro f₂ l h₁ h₂
    cases l with
    | nil => cases f₂ <;> simp [uniqueFirstAux]
    | cons a t =>
      cases f₂ with
      | zero => simp at h₂
      | succ g =>
        have hf : (t.filter (fun x => x ≠ a)).length ≤ f := by
          have := (List.filter_sublist (l := t) (p := fun x => x ≠ a)).length_le
          simp only [List.length_cons] at h₁
          omega
        have hg : (t.filter (fun x => x ≠ a)).length ≤ g := by
          have := (List.filter_sublist (l := t) (p := fun x => x ≠ a)).length_le
          simp only [List.length_cons] at h₂
          omega
        simp only [uniqueFirstAux]
        rw [ih g _ hf hg]

/-- The defining equation of `uniqueFirst`, with the fuel hidden. -/
theorem uniqueFirst_cons {α : Type} [DecidableEq α] (a : α) (t : List α) :
    uniqueFirst (a :: t) = a :: uniqueFirst (t.filter (fun x => x ≠ a)) := by
  have hf : (t.filter (fun x => x ≠ a)).length ≤ t.length :=
    (List.filter_sublist (l := t) (p := fun x => x ≠ a)).length_le
  simp only [uniqueFirst, List.length_cons, uniqueFirstAux]
  rw [uniqueFirstAux_congr t.length (t.filter (fun x => x ≠ a)).length _ hf le_rfl]

theorem mem_uniqueFirst {α : Type} [DecidableEq α] :
    ∀ (n : Nat) (l : List α), l.length ≤ n → ∀ x, x ∈ uniqueFirst l ↔ x ∈ l := by
  intro n
  induction n with
  | zero =>
    intro l h x
    have : l = [] := List.length_eq_zero.mp (Nat.le_zero.mp h)
    subst this
    simp [uniqueFirst, uniqueFirstAux]
  | succ n ih =>
    intro l h x
    cases l with
    | nil => simp [uniqueFirst, uniqueFirstAux]
    | cons a t =>
      rw [uniqueFirst_cons]
      have hlen : (t.filter (fun x => x ≠ a)).length ≤ n := by
        have := (List.filter_sublist (l := t) (p := fun x => x ≠ a)).length_le
        simp only [List.length_cons] at h
        omega
      constructor
      · intro hx
        rcases List.mem_cons.mp hx with rfl | hx
        · exact List.mem_cons_self _ _
        · have := (ih _ hlen x).mp hx
          exact List.mem_cons_of_mem _ (List.mem_of_mem_filter this)
      · intro hx
        rcases List.mem_cons.mp hx with rfl | hx
        · exact List.mem_cons_self _ _
        · by_cases hxa : x = a
          · subst hxa; exact List.mem_cons_self _ _
          · refine List.mem_cons_of_mem _ ((ih _ hlen x).mpr ?_)
            exact List.mem_filter.mpr ⟨hx, by simp [hxa]⟩

theorem nodup_uniqueFirst {α : Type} [DecidableEq α] :
    ∀ (n : Nat) (l : List α), l.length ≤ n → (uniqueFirst l).Nodup := by
  intro n
  induction n with
  | zero =>
    intro l h
    have : l = [] := List.length_eq_zero.mp (Nat.le_zero.mp h)
    subst this
    simp [uniqueFirst, uniqueFirstAux]
  | succ n ih =>
    intro l h
    cases l with
    | nil => simp [uniqueFirst, uniqueFirstAux]
    | cons a t =>
      rw [uniqueFirst_cons]
      have hlen : (t.filter (fun x => x ≠ a)).length ≤ n := by
        have := (List.filter_sublist (l := t) (p := fun x => x ≠ a)).length_le
        simp only [List.length_cons] at h
        omega
      refine List.nodup_cons.mpr ⟨?_, ih _ hlen⟩
      intro hmem
      have := (mem_uniqueFirst n _ hlen a).mp hmem
      have := List.of_mem_filter this
      simp at this

/-! ## Helper lemmas: `dropDupLast` (pandas `drop_duplicates(keep="last")`) -/

theorem dropDupLast_cons {α κ : Type} [DecidableEq κ] (key : α → κ) (x : α)
    (xs : List α) :
    dropDupLast key (x :: xs) =
      if xs.any (fun y => key y = key x) then dropDupLast key xs
      else x :: dropDupLast key xs := rfl

theorem dropDupLast_sublist {α κ : Type} [DecidableEq κ] (key : α → κ) :
    ∀ l : List α, (dropDupLast key l).Sublist l := by
  intro l
  induction l with
  | nil => simp [dropDupLast]
  | cons x xs ih =>
    by_cases h : xs.any (fun y => key y = key x)
    · simp only [dropDupLast, h, if_true]
      exact ih.cons x
    · simp only [dropDupLast, h, if_false]
      exact ih.cons₂ x

theorem mem_of_mem_dropDupLast {α κ : Type} [DecidableEq κ] {key : α → κ}
    {l : List α} {x : α} (h : x ∈ dropDupLast key l) : x ∈ l :=
  (dropDupLast_sublist key l).mem h

theorem dropDupLast_pairwise {α κ : Type} [DecidableEq κ] (key : α → κ) :
    ∀ l : List α, (dropDupLast key l).Pairwise (fun a b => key a ≠ key b) := by
  intro l
  induction l with
  | nil => simp [dropDupLast]
  | cons x xs ih =>
    by_cases h : xs.any (fun y => key y = key x)
    · simp only [dropDupLast, h, if_true]
      exact ih
    · simp only [dropDupLast, h, if_false]
      refine List.pairwise_cons.mpr ⟨?_, ih⟩
      intro b hb hkey
      have hbxs : b ∈ xs := mem_of_mem_dropDupLast hb
      have : xs.any (fun y => key y = key x) := by
        refine List.any_eq_true.mpr ⟨b, hbxs, ?_⟩
        simp [hkey]
      exact h this

theorem exists_key_mem_dropDupLast {α κ : Type} [DecidableEq κ] {key : α → κ} :
    ∀ {l : List α} {x : α}, x ∈ l → ∃ y ∈ dropDupLast key l, key y = key x := by
  intro l
  induction l with
  | nil => intro x hx; simp at hx
  | cons a t ih =>
    intro x hx
    by_cases h : t.any (fun y => key y = key a)
    · simp only [dropDupLast, h, if_true]
      rcases List.mem_cons.mp hx with rfl | hx
      · rcases List.any_eq_true.mp h with ⟨z, hz, hkz⟩
        rcases ih hz with ⟨y, hy, hky⟩
        exact ⟨y, hy, by simp at hkz; rw [hky, hkz]⟩
      · exact ih hx
    · simp only [dropDupLast, h, if_false]
      rcases List.mem_cons.mp hx with rfl | hx
      · exact ⟨x, List.mem_cons_self _ _, rfl⟩
      · rcases ih hx with ⟨y, hy, hky⟩
        exact ⟨y, List.mem_cons_of_mem _ hy, hky⟩

/-- When no two list members collide on the key without being equal,
`dropDupLast` only removes literal copies: membership is unchanged. -/
theorem mem_dropDupLast_of_inj {α κ : Type} [DecidableEq κ] {key : α → κ} :
    ∀ {l : List α}, (∀ a ∈ l, ∀ b ∈ l, key a = key b → a = b) →
      ∀ x, x ∈ dropDupLast key l ↔ x ∈ l := by
  intro l hinj x
  constructor
  · exact mem_of_mem_dropDupLast
  · intro hx
    rcases @exists_key_mem_dropDupLast _ _ _ key l x hx with ⟨y, hy, hky⟩
    have : y = x := hinj y (mem_of_mem_dropDupLast hy) x hx hky
    exact this ▸ hy

/-- A pairwise key-distinct list is key-injective on its members. -/
theorem key_inj_of_pairwise {α κ : Type} {key : α → κ} :
    ∀ {l : List α}, l.Pairwise (fun a b => key a ≠ key b) →
      ∀ a ∈ l, ∀ b ∈ l, key a = key b → a = b := by
  intro l hp
  induction l with
  | nil => intro a ha; simp at ha
  | cons x t ih =>
    rcases List.pairwise_cons.mp hp with ⟨hx, ht⟩
    intro a ha b hb hk
    rcases List.mem_cons.mp ha with ha1 | ha2
    · rcases List.mem_cons.mp hb with hb1 | hb2
      · rw [ha1, hb1]
      · exact absurd (ha1 ▸ hk) (hx b hb2)
    · rcases List.mem_cons.mp hb with hb1 | hb2
      · exact absurd (hb1 ▸ hk).symm (hx a ha2)
      · exact ih ht a ha2 b hb2 hk

/-- In `dropDupLast key (store ++ batch)`, a stored record is removed whenever
some batch record carries its key and the record itself is not in the batch. -/
theorem not_mem_dropDupLast_append {α κ : Type} [DecidableEq κ] {key : α → κ}
    {batch : List α} {s b : α} (hsb : s ∉ batch) (hb : b ∈ batch)
    (hk : key b = key s) :
    ∀ store : List α, s ∉ dropDupLast key (store ++ batch) := by
  intro store
  induction store with
  | nil =>
    intro hmem
    exact hsb (mem_of_mem_dropDupLast (by simpa using hmem))
  | cons a rest ih =>
    intro hmem
    rw [List.cons_append, dropDupLast_cons] at hmem
    by_cases h : (rest ++ batch).any (fun y => key y = key a)
    · rw [if_pos h] at hmem
      exact ih hmem
    · rw [if_neg h] at hmem
      rcases List.mem_cons.mp hmem with rfl | hmem
      · exact h (List.any_eq_true.mpr ⟨b, List.mem_append_right _ hb, by simp [hk]⟩)
      · exact ih hmem

/-! ## Helper lemmas: the stable descending sort -/

theorem mem_insertByScore {x z : Prospect} :
    ∀ {l : List Prospect}, z ∈ insertByScore x l → z = x ∨ z ∈ l := by
  intro l
  induction l with
  | nil =>
    intro h
    simp only [insertByScore] at h
    exact Or.inl (by simpa using h)
  | cons y t ih =>
    intro h
    simp only [insertByScore] at h
    by_cases hc : y.score ≤ x.score
    · rw [if_pos hc] at h
      rcases List.mem_cons.mp h with rfl | h
      · exact Or.inl rfl
      · exact Or.inr h
    · rw [if_neg hc] at h
      rcases List.mem_cons.mp h with rfl | h
      · exact Or.inr (List.mem_cons_self _ _)
      · rcases ih h with rfl | h
        · exact Or.inl rfl
        · exact Or.inr (List.mem_cons_of_mem _ h)

theorem insertByScore_perm (x : Prospect) :
    ∀ l : List Prospect, List.Perm (insertByScore x l) (x :: l) := by
  intro l
  induction l with
  | nil => simp [insertByScore]
  | cons y t ih =>
    simp only [insertByScore]
    by_cases hc : y.score ≤ x.score
    · rw [if_pos hc]
    · rw [if_neg hc]
      exact (ih.cons y).trans (List.Perm.swap x y t)

theorem sortByScoreDesc_perm :
    ∀ l : List Prospect, List.Perm (sortByScoreDesc l) l := by
  intro l
  induction l with
  | nil => simp [sortByScoreDesc]
  | cons x t ih =>
    have : sortByScoreDesc (x :: t) = insertByScore x (sortByScoreDesc t) := rfl
    rw [this]
    exact (insertByScore_perm x _).trans (ih.cons x)

theorem insertByScore_pairwise {x : Prospect} :
    ∀ {l : List Prospect}, l.Pairwise (fun a b => b.score ≤ a.score) →
      (insertByScore x l).Pairwise (fun a b => b.score ≤ a.score) := by
  intro l
  induction l with
  | nil => intro _; simp [insertByScore]
  | cons y t ih =>
    intro hp
    rcases List.pairwise_cons.mp hp with ⟨hy, ht⟩
    simp only [insertByScore]
    by_cases hc : y.score ≤ x.score
    · rw [if_pos hc]
      refine List.pairwise_cons.mpr ⟨?_, hp⟩
      intro b hb
      rcases List.mem_cons.mp hb with rfl | hb
      · exact hc
      · exact le_trans (hy b hb) hc
    · rw [if_neg hc]
      refine List.pairwise_cons.mpr ⟨?_, ih ht⟩
      intro b hb
      rcases mem_insertByScore hb with rfl | hb
      · omega
      · exact hy b hb

theorem sortByScoreDesc_pairwise :
    ∀ l : List Prospect,
      (sortByScoreDesc l).Pairwise (fun a b => b.score ≤ a.score) := by
  intro l
  induction l with
  | nil => simp [sortByScoreDesc]
  | cons x t ih => exact insertByScore_pairwise ih

theorem filter_insertByScore (x : Prospect) (s : Nat) :
    ∀ l : List Prospect,
      (insertByScore x l).filter (fun p => p.score = s) =
        if x.score = s then x :: l.filter (fun p => p.score = s)
        else l.filter (fun p => p.score = s) := by
  intro l
  induction l with
  | nil => by_cases hx : x.score = s <;> simp [insertByScore, List.filter_cons, hx]
  | cons y t ih =>
    simp only [insertByScore]
    by_cases hc : y.score ≤ x.score
    · rw [if_pos hc]
      by_cases hx : x.score = s <;> simp [List.filter_cons, hx]
    · rw [if_neg hc]
      by_cases hx : x.score = s
      · have hy : ¬ y.score = s := by omega
        simp [List.filter_cons, hy, ih, hx]
      · simp [List.filter_cons, ih, hx]

theorem filter_sortByScoreDesc (s : Nat) :
    ∀ l : List Prospect,
      (sortByScoreDesc l).filter (fun p => p.score = s) =
        l.filter (fun p => p.score = s) := by
  intro l
  induction l with
  | nil => simp [sortByScoreDesc]
  | cons x t ih =>
    have hdef : sortByScoreDesc (x :: t) = insertByScore x (sortByScoreDesc t) := rfl
    rw [hdef, filter_insertByScore]
    by_cases hx : x.score = s <;> simp [List.filter_cons, hx, ih]

/-! ## Helper lemmas: clock-shift invariance of the score -/

theorem companyJobs_shift (df : List Job) (c : String) (δ : Int) :
    companyJobs (df.map (shiftJob δ)) c = (companyJobs df c).map (shiftJob δ) := by
  unfold companyJobs
  rw [List.filter_map]
  rfl

theorem recentCount_shift (jobs : List Job) (now δ : Int) :
    recentCount (jobs.map (shiftJob δ)) (now + δ) = recentCount jobs now := by
  unfold recentCount
  rw [List.filter_map]
  rw [List.length_map]
  congr 1
  apply List.filter_congr
  intro j _
  simp only [Function.comp, shiftJob]
  rw [decide_eq_decide]
  omega

theorem allTech_shift (jobs : List Job) (δ : Int) :
    allTech (jobs.map (shiftJob δ)) = allTech jobs := by
  unfold allTech
  rw [List.map_map]
  rfl

theorem allTitles_shift (jobs : List Job) (δ : Int) :
    allTitles (jobs.map (shiftJob δ)) = allTitles jobs := by
  unfold allTitles
  rw [List.map_map]
  rfl

theorem uniqueLocationCount_shift (jobs : List Job) (δ : Int) :
    uniqueLocationCount (jobs.map (shiftJob δ)) = uniqueLocationCount jobs := by
  unfold uniqueLocationCount
  rw [List.map_map]
  rfl

/-- Shifting every job's date and the evaluation date by the same amount
leaves the score unchanged: the clock enters only through job ages. -/
theorem calc_score_shift (df : List Job) (c : String) (now δ : Int) :
    calculate_transformation_score (df.map (shiftJob δ)) c (now + δ) =
      calculate_transformation_score df c now := by
  unfold calculate_transformation_score
  simp only [companyJobs_shift, List.length_map, recentCount_shift, allTech_shift,
    allTitles_shift, uniqueLocationCount_shift]

/-! ## Helper lemmas: the detector as a rule table -/

theorem filterMapCons {α β : Type} (p : α → Bool) (f : α → β) (a : α)
    (rest : List α) :
    ((a :: rest).filter p).map f =
      (if p a then [f a] else []) ++ (rest.filter p).map f := by
  by_cases h : p a <;> simp [List.filter_cons, h]

theorem detect_eq_detectByTable (df : List Job) (c : String) :
    detect_transformation_signals df c =
      detectByTable (signalText (companyJobs df c)) (companyJobs df c).length := by
  unfold detect_transformation_signals detectByTable ruleTable
  dsimp only []
  rw [tms_systems]
  simp only [filterMapCons, List.filter_nil, List.map_nil, List.append_nil,
    List.append_assoc]

/-- The 21 signal types of the rule table are pairwise distinct. -/
theorem ruleTable_types_nodup :
    (ruleTable.map (fun r => r.sig.type)).Nodup := by
  decide

/-- The 21 signals of the rule table are pairwise distinct records. -/
theorem ruleTable_sigs_nodup :
    (ruleTable.map (fun r => r.sig)).Nodup := by
  decide

/-! ## Helper lemmas: the prospect rows -/

theorem prospectRows_map_company (df : List Job) (now : Int) :
    (prospectRows df now).map (fun p => p.company) =
      (uniqueFirst (df.map (fun j => j.company))).filter
        (fun c => ¬ calculate_transformation_score df c now < 20) := by
  unfold prospectRows
  rw [List.map_map]
  have h : ((fun p => Prospect.company p) ∘ mkProspect df now) = fun c => c := by
    funext c
    rfl
  rw [h]
  simp

/-! ## Claim theorems -/

/-- C1: for every company's job set the score is the sum of the five
independently capped factors of spec §4.5 — hiring velocity, technology
signal, job-type mix, seniority mix, geographic spread — summed and clamped
to 100, always an integer in [0,100]; the spec's worked example scores 95 and
classifies as Tier 1. -/
theorem C1_scoring_formula :
    (∀ (df : List Job) (c : String) (now : Int),
        calculate_transformation_score df c now =
          min 100
            (spec_velocityPoints (recentCount (companyJobs df c) now) +
             spec_techPoints (allTech (companyJobs df c)) +
             spec_jobTypePoints
               (keywordHits interim_keywords (allTitles (companyJobs df c))) +
             spec_seniorityPoints
               (keywordHits senior_keywords (allTitles (companyJobs df c))) +
             spec_geoPoints (uniqueLocationCount (companyJobs df c)))) ∧
    (∀ (df : List Job) (c : String) (now : Int),
        calculate_transformation_score df c now ≤ 100) ∧
    calculate_transformation_score exampleStore "Acme" 100 = 95 ∧
    (classify_prospect_tier
        (calculate_transformation_score exampleStore "Acme" 100)).1 =
      "Tier 1: Hot" := by
  have hmain : ∀ (df : List Job) (c : String) (now : Int),
      calculate_transformation_score df c now =
        min 100
          (spec_velocityPoints (recentCount (companyJobs df c) now) +
           spec_techPoints (allTech (companyJobs df c)) +
           spec_jobTypePoints
             (keywordHits interim_keywords (allTitles (companyJobs df c))) +
           spec_seniorityPoints
             (keywordHits senior_keywords (allTitles (companyJobs df c))) +
           spec_geoPoints (uniqueLocationCount (companyJobs df c))) := by
    intro df c now
    unfold calculate_transformation_score spec_velocityPoints spec_techPoints
      spec_jobTypePoints spec_seniorityPoints spec_geoPoints
    dsimp only []
    split
    · rename_i h
      have hnil : companyJobs df c = [] := List.length_eq_zero.mp h
      rw [hnil]
      simp [recentCount, allTech, allTitles, keywordHits, uniqueLocationCount,
        strContains, subList, strLower, uniqueFirst, List.filter, uniqueFirstAux,
        interim_keywords, senior_keywords]
    · omega
  refine ⟨hmain, ?_, by decide, by decide⟩
  intro df c now
  rw [hmain df c now]
  exact Nat.min_le_left _ _

/-- C2 counterexample: the score of an unchanged one-job store differs
between two run dates, because `calculate_transformation_score` reads the
clock to form the trailing-30-day window — the result does depend on external
state. -/
theorem C2_counterexample_clock_dependence :
    calculate_transformation_score [borderlineJob] "A" 10 ≠
      calculate_transformation_score [borderlineJob] "A" 50 := by decide

/-- C2 amended: scoring is deterministic given the run date — it is a pure
function of the job set and `datetime.now()`, and the run date enters only
through each job's age: shifting every `date_scraped` and the clock by the
same amount leaves both score and tier unchanged. -/
theorem C2_deterministic_given_run_date :
    ∀ (df : List Job) (c : String) (now δ : Int),
      calculate_transformation_score (df.map (shiftJob δ)) c (now + δ) =
        calculate_transformation_score df c now ∧
      classify_prospect_tier
          (calculate_transformation_score (df.map (shiftJob δ)) c (now + δ)) =
        classify_prospect_tier (calculate_transformation_score df c now) := by
  intro df c now δ
  refine ⟨calc_score_shift df c now δ, ?_⟩
  rw [calc_score_shift]

/-- C3 counterexample: `rowA` and `rowB` share a non-empty url — one identity
key under the spec's rule — yet the email merge keeps both, because it
deduplicates on the full `(source, company, title, location, url)` tuple; the
spec's merge would have replaced the stored record. -/
theorem C3_counterexample_url_not_identity :
    specIdentityKey rowA = specIdentityKey rowB ∧
    rowA ≠ rowB ∧
    email_save_to_csv [rowA] [rowB] = [rowA, rowB] ∧
    specMerge [rowA] [rowB] = [rowB] := by decide

/-- C3 amended: the merges deduplicate keep-last on their actual keys — the
email writer on the exact 5-tuple `(source, company, title, location, url)`,
the scraper first on `url` alone (unconditionally, empty urls comparing
equal) and then on `(company, title, location)` without `source`; in each, a
later record with the same key replaces the earlier one. -/
theorem C3_actual_merge_policy :
    (∀ (existing batch : List Row) (r : Row),
        r ∈ email_save_to_csv existing batch → r ∈ existing ++ batch) ∧
    (∀ existing batch : List Row,
        (email_save_to_csv existing batch).Pairwise (fun a b => key5 a ≠ key5 b)) ∧
    (∀ (existing batch : List Row) (r : Row), r ∈ existing ++ batch →
        ∃ y ∈ email_save_to_csv existing batch, key5 y = key5 r) ∧
    (∀ (existing batch : List Row) (s b : Row),
        s ∉ batch → b ∈ batch → key5 b = key5 s →
        s ∉ email_save_to_csv existing batch) ∧
    (∀ (existing batch : List Row) (r : Row),
        r ∈ scraper_save_to_csv existing batch → r ∈ existing ++ batch) ∧
    (∀ existing batch : List Row,
        (scraper_save_to_csv existing batch).Pairwise (fun a b => a.url ≠ b.url)) ∧
    (∀ existing batch : List Row,
        (scraper_save_to_csv existing batch).Pairwise
          (fun a b => keyCTL a ≠ keyCTL b)) := by
  refine ⟨?_, ?_, ?_, ?_, ?_, ?_, ?_⟩
  · intro existing batch r hr
    exact mem_of_mem_dropDupLast hr
  · intro existing batch
    exact dropDupLast_pairwise key5 _
  · intro existing batch r hr
    exact exists_key_mem_dropDupLast hr
  · intro existing batch s b hsb hb hk
    exact not_mem_dropDupLast_append hsb hb hk existing
  · intro existing batch r hr
    exact mem_of_mem_dropDupLast (mem_of_mem_dropDupLast hr)
  · intro existing batch
    refine List.Pairwise.sublist (dropDupLast_sublist keyCTL _) ?_
    exact dropDupLast_pairwise (fun r : Row => r.url) _
  · intro existing batch
    exact dropDupLast_pairwise keyCTL _

/-- C3 witness: a batch record with the stored record's 5-tuple key removes
the stored copy from the merged store. -/
theorem C3_witness : rowA ∉ email_save_to_csv [rowA] [rowA2] :=
  C3_actual_merge_policy.2.2.2.1 [rowA] [rowA2] rowA rowA2
    (by decide) (by decide) (by decide)

/-- C4: re-ingesting a batch whose records are already literally present in a
canonical store (one whose identity keys are pairwise distinct, as both
writers guarantee for their own output) leaves the stored record set
unchanged. -/
theorem C4_reingest_idempotent :
    (∀ (store batch : List Row),
        store.Pairwise (fun a b => key5 a ≠ key5 b) →
        (∀ b ∈ batch, b ∈ store) →
        ∀ r : Row, r ∈ email_save_to_csv store batch ↔ r ∈ store) ∧
    (∀ (store batch : List Row),
        store.Pairwise (fun a b => a.url ≠ b.url) →
        store.Pairwise (fun a b => keyCTL a ≠ keyCTL b) →
        (∀ b ∈ batch, b ∈ store) →
        ∀ r : Row, r ∈ scraper_save_to_csv store batch ↔ r ∈ store) := by
  constructor
  · intro store batch hpair hsub r
    have hinj : ∀ a ∈ store ++ batch, ∀ b ∈ store ++ batch,
        key5 a = key5 b → a = b := by
      intro a ha b hb hk
      have ha2 : a ∈ store := by
        rcases List.mem_append.mp ha with h | h
        · exact h
        · exact hsub _ h
      have hb2 : b ∈ store := by
        rcases List.mem_append.mp hb with h | h
        · exact h
        · exact hsub _ h
      exact key_inj_of_pairwise hpair a ha2 b hb2 hk
    unfold email_save_to_csv
    rw [mem_dropDupLast_of_inj hinj r]
    constructor
    · intro h
      rcases List.mem_append.mp h with h | h
      · exact h
      · exact hsub _ h
    · exact List.mem_append_left _
  · intro store batch hurl hctl hsub r
    have hinj1 : ∀ a ∈ store ++ batch, ∀ b ∈ store ++ batch,
        a.url = b.url → a = b := by
      intro a ha b hb hk
      have ha2 : a ∈ store := by
        rcases List.mem_append.mp ha with h | h
        · exact h
        · exact hsub _ h
      have hb2 : b ∈ store := by
        rcases List.mem_append.mp hb with h | h
        · exact h
        · exact hsub _ h
      exact key_inj_of_pairwise hurl a ha2 b hb2 hk
    have hstage1 : ∀ x : Row,
        x ∈ dropDupLast (fun r => r.url) (store ++ batch) ↔ x ∈ store ++ batch :=
      mem_dropDupLast_of_inj hinj1
    have hstage1store : ∀ x : Row,
        x ∈ dropDupLast (fun r => r.url) (store ++ batch) → x ∈ store := by
      intro x hx
      rcases List.mem_append.mp ((hstage1 x).mp hx) with h | h
      · exact h
      · exact hsub _ h
    have hinj2 : ∀ a ∈ dropDupLast (fun r => r.url) (store ++ batch),
        ∀ b ∈ dropDupLast (fun r => r.url) (store ++ batch),
        keyCTL a = keyCTL b → a = b := by
      intro a ha b hb hk
      exact key_inj_of_pairwise hctl a (hstage1store a ha) b (hstage1store b hb) hk
    unfold scraper_save_to_csv
    rw [mem_dropDupLast_of_inj hinj2 r, hstage1 r]
    constructor
    · intro h
      rcases List.mem_append.mp h with h | h
      · exact h
      · exact hsub _ h
    · exact List.mem_append_left _

/-- C4 witness: merging a batch that repeats a stored record leaves
membership unchanged, for both writers, on a concrete two-row store. -/
theorem C4_witness :
    (rowA ∈ email_save_to_csv [rowA, rowC] [rowA] ↔ rowA ∈ [rowA, rowC]) ∧
    (rowA ∈ scraper_save_to_csv [rowA, rowC] [rowA] ↔ rowA ∈ [rowA, rowC]) :=
  ⟨C4_reingest_idempotent.1 [rowA, rowC] [rowA] (by decide) (by decide) rowA,
   C4_reingest_idempotent.2 [rowA, rowC] [rowA] (by decide) (by decide)
     (by decide) rowA⟩

/-- C5: the StepStone card logic stores a record whose title is the empty
string when the title element exists but carries no text — the acceptance
check `title != "Unknown"` does not discard an empty extracted title, so the
non-empty-title invariant fails at this input. -/
theorem C5_stepstone_accepts_empty_title :
    stepstoneCandidate "2026-10-12" (some "") (some "Acme Treasury GmbH") none
        "Deutschland" (some "https://www.stepstone.de/job/1") =
      some { date_scraped := "2026-10-12", source := "StepStone.de",
             company := "Acme Treasury", title := "", location := "Deutschland",
             country := "", url := "https://www.stepstone.de/job/1",
             technologies := "" } := by decide

/-- C7 counterexample: a Jobs.ch card whose company stays the `"Unknown"`
sentinel is accepted and stored — only the title and url are checked. -/
theorem C7_counterexample_jobsch_unknown_company :
    jobsChCandidate "2026-10-12" "Treasury Manager" "Unknown" none
        (some "/en/jobs/123") =
      some { date_scraped := "2026-10-12", source := "Jobs.ch",
             company := "Unknown", title := "Treasury Manager",
             location := "Switzerland", country := "Switzerland",
             url := "https://www.jobs.ch/en/jobs/123", technologies := "" } := by
  decide

/-- C7 amended: only the StepStone extractor requires both title and company
to be non-sentinel (plus a non-empty url); the Jobs.ch extractor requires a
non-sentinel title and a non-empty url, and keeps records whose company
remains `"Unknown"`. -/
theorem C7_card_acceptance :
    (∀ (d : String) (t comp loc : Option String) (s : String)
        (href : Option String) (r : Row),
        stepstoneCandidate d t comp loc s href = some r →
        r.title ≠ "Unknown" ∧ r.company ≠ "Unknown" ∧ r.url ≠ "") ∧
    (∀ (d t comp : String) (loc href : Option String) (r : Row),
        jobsChCandidate d t comp loc href = some r →
        r.title ≠ "Unknown" ∧ r.url ≠ "") := by
  constructor
  · intro d t comp loc s href r hr
    unfold stepstoneCandidate at hr
    dsimp only [] at hr
    split at hr
    · rename_i hcond
      injection hr with hr
      subst hr
      exact ⟨hcond.1, hcond.2.1, hcond.2.2⟩
    · exact Option.noConfusion hr
  · intro d t comp loc href r hr
    unfold jobsChCandidate at hr
    dsimp only [] at hr
    split at hr
    · rename_i hcond
      injection hr with hr
      subst hr
      exact ⟨hcond.1, hcond.2⟩
    · exact Option.noConfusion hr

/-- C7 witness: fully resolved cards are accepted by both extractors and
satisfy the acceptance guarantees. -/
theorem C7_witness :
    (acceptedStepstoneRow.title ≠ "Unknown" ∧
     acceptedStepstoneRow.company ≠ "Unknown" ∧ acceptedStepstoneRow.url ≠ "") ∧
    (acceptedJobsChRow.title ≠ "Unknown" ∧ acceptedJobsChRow.url ≠ "") :=
  ⟨C7_card_acceptance.1 "2026-10-12" (some "Treasury Manager") (some "Acme GmbH")
      none "Deutschland" (some "https://www.stepstone.de/j/1")
      acceptedStepstoneRow (by decide),
   C7_card_acceptance.2 "2026-10-12" "Treasury Manager" "Acme GmbH" none
      (some "https://www.jobs.ch/en/jobs/9") acceptedJobsChRow (by decide)⟩

/-- C8 counterexample: the email parser's `_clean_company` returns the empty
string — not `"Unknown"` — when cleaning empties the input. -/
theorem C8_counterexample_email_empty_not_unknown :
    clean_company_email "" = "" ∧ clean_company_email "" ≠ "Unknown" := by decide

/-- C8 amended: both cleaners collapse whitespace and strip the fixed
legal-entity suffixes case-insensitively at the end, and both clean
`"Acme Treasury GmbH"` to `"Acme Treasury"`; but only the scraper's cleaner
strips parentheticals and falls back to `"Unknown"` (it never returns the
empty string), while the email parser's variant returns `""` on an
empty-cleaning input and leaves parentheticals alone. -/
theorem C8_company_cleaning :
    clean_company_scraper "Acme Treasury GmbH" = "Acme Treasury" ∧
    clean_company_email "Acme Treasury GmbH" = "Acme Treasury" ∧
    (∀ suf ∈ legalSuffixes,
        clean_company_scraper ("Acme Treasury " ++ suf) = "Acme Treasury" ∧
        clean_company_email ("Acme Treasury " ++ suf) = "Acme Treasury") ∧
    (∀ s : String, clean_company_scraper s ≠ "") ∧
    clean_company_scraper "" = "Unknown" ∧
    clean_company_scraper "Acme (Zurich branch) Treasury" = "AcmeTreasury" ∧
    clean_company_email "Acme (Zurich branch) Treasury" =
      "Acme (Zurich branch) Treasury" := by
  refine ⟨by decide, by decide, by decide, ?_, by decide, by decide, by decide⟩
  intro s
  unfold clean_company_scraper
  split
  · simp
  · dsimp only []
    split
    · simp
    · rename_i hne
      exact hne

/-- C8 witness: the suffix rule and the never-empty guarantee at concrete
inputs. -/
theorem C8_witness :
    (clean_company_scraper "Acme Treasury gmbh" = "Acme Treasury" ∧
     clean_company_email "Acme Treasury gmbh" = "Acme Treasury") ∧
    clean_company_scraper "xyz" ≠ "" :=
  ⟨C8_company_cleaning.2.2.1 "gmbh" (by decide),
   C8_company_cleaning.2.2.2.1 "xyz"⟩

/-- C6 counterexample: a scoring run that yields no prospects leaves the
previous run's prospect file in place — `save_prospects_csv` returns before
writing when the list is empty, so the old list is not replaced. -/
theorem C6_counterexample_empty_run_keeps_old_file :
    analyze_all_companies [] 0 = [] ∧
    save_prospects_csv [staleProspectRow] (analyze_all_companies [] 0) =
      [staleProspectRow] := by decide

/-- C6 amended: the prospect list holds exactly one row per company whose
score is at least 20 (lower-scoring companies are computed but dropped), and
a run with at least one prospect fully replaces the previous file; only a run
with no prospects leaves the old file untouched. -/
theorem C6_prospect_list :
    (∀ (df : List Job) (now : Int),
        ((analyze_all_companies df now).map (fun p => p.company)).Nodup) ∧
    (∀ (df : List Job) (now : Int) (c : String),
        c ∈ (analyze_all_companies df now).map (fun p => p.company) ↔
          c ∈ df.map (fun j => j.company) ∧
            20 ≤ calculate_transformation_score df c now) ∧
    (∀ (df : List Job) (now : Int) (old : List ProspectCsvRow),
        analyze_all_companies df now ≠ [] →
        save_prospects_csv old (analyze_all_companies df now) =
          (analyze_all_companies df now).map flattenProspect) := by
  refine ⟨?_, ?_, ?_⟩
  · intro df now
    have hperm :
        List.Perm ((analyze_all_companies df now).map (fun p => p.company))
          ((prospectRows df now).map (fun p => p.company)) :=
      (sortByScoreDesc_perm (prospectRows df now)).map _
    rw [hperm.nodup_iff, prospectRows_map_company]
    exact (nodup_uniqueFirst (df.map (fun j => j.company)).length _ le_rfl).filter _
  · intro df now c
    have hperm :
        List.Perm ((analyze_all_companies df now).map (fun p => p.company))
          ((prospectRows df now).map (fun p => p.company)) :=
      (sortByScoreDesc_perm (prospectRows df now)).map _
    rw [hperm.mem_iff, prospectRows_map_company, List.mem_filter]
    rw [mem_uniqueFirst (df.map (fun j => j.company)).length _ le_rfl]
    simp only [decide_eq_true_eq, Nat.not_lt]
  · intro df now old hne
    unfold save_prospects_csv
    rw [if_neg]
    intro hempty
    exact hne (List.isEmpty_iff.mp hempty)

/-- C6 witness: on the worked-example store the run has a prospect, and the
new rows replace an empty previous file. -/
theorem C6_witness :
    save_prospects_csv [] (analyze_all_companies exampleStore 100) =
      (analyze_all_companies exampleStore 100).map flattenProspect :=
  C6_prospect_list.2.2 exampleStore 100 [] (by decide)

/-- C9: the detector is the fixed ordered rule table — each rule appends its
signal exactly when its own predicate fires (no rule suppresses another), the
output never holds two signals of the same type, and re-evaluating on the
same job store yields the same signal list. -/
theorem C9_detector_rules :
    (∀ (df : List Job) (c : String),
        detect_transformation_signals df c =
          detectByTable (signalText (companyJobs df c)) (companyJobs df c).length) ∧
    (∀ (df : List Job) (c : String),
        ((detect_transformation_signals df c).map (fun s => s.type)).Nodup) ∧
    (∀ (text : String) (n : Nat) (r : SignalRule), r ∈ ruleTable →
        (r.sig ∈ detectByTable text n ↔ r.cond text n = true)) ∧
    (∀ (df₁ df₂ : List Job) (c₁ c₂ : String), df₁ = df₂ → c₁ = c₂ →
        detect_transformation_signals df₁ c₁ =
          detect_transformation_signals df₂ c₂) := by
  refine ⟨detect_eq_detectByTable, ?_, ?_, ?_⟩
  · intro df c
    rw [detect_eq_detectByTable]
    unfold detectByTable
    rw [List.map_map]
    have hsub :
        ((ruleTable.filter
            (fun r => r.cond (signalText (companyJobs df c))
              (companyJobs df c).length)).map (fun r => r.sig.type)).Sublist
          (ruleTable.map (fun r => r.sig.type)) :=
      (List.filter_sublist _).map _
    exact List.Nodup.sublist hsub ruleTable_types_nodup
  · intro text n r hr
    constructor
    · intro hmem
      unfold detectByTable at hmem
      rcases List.mem_map.mp hmem with ⟨q, hq, hqs⟩
      rcases List.mem_filter.mp hq with ⟨hqT, hqc⟩
      have hqr : q = r := List.inj_on_of_nodup_map ruleTable_sigs_nodup hqT hr hqs
      rw [← hqr]
      exact hqc
    · intro hc
      unfold detectByTable
      exact List.mem_map_of_mem _ (List.mem_filter.mpr ⟨hr, hc⟩)
  · intro df₁ df₂ c₁ c₂ h₁ h₂
    rw [h₁, h₂]

/-- C9 witness: the Kyriba rule fires exactly on its own predicate at a
concrete text, and re-evaluation on equal inputs agrees. -/
theorem C9_witness :
    ((ruleTable.get ⟨1, by decide⟩).sig ∈ detectByTable "kyriba" 1 ↔
      (ruleTable.get ⟨1, by decide⟩).cond "kyriba" 1 = true) ∧
    detect_transformation_signals [] "A" = detect_transformation_signals [] "A" :=
  ⟨C9_detector_rules.2.2.1 "kyriba" 1 _ (ruleTable.get_mem _ _),
   C9_detector_rules.2.2.2 [] [] "A" "A" rfl rfl⟩

/-- C10: the prospect list is the qualifying rows sorted by non-increasing
score, ties keeping analysis order (rows with any one score keep their
relative order), and when non-empty it is persisted in exactly that order. -/
theorem C10_prospects_sorted :
    (∀ (df : List Job) (now : Int),
        List.Perm (analyze_all_companies df now) (prospectRows df now)) ∧
    (∀ (df : List Job) (now : Int),
        (analyze_all_companies df now).Pairwise (fun a b => b.score ≤ a.score)) ∧
    (∀ (df : List Job) (now : Int) (s : Nat),
        (analyze_all_companies df now).filter (fun p => p.score = s) =
          (prospectRows df now).filter (fun p => p.score = s)) ∧
    (∀ (df : List Job) (now : Int) (old : List ProspectCsvRow),
        analyze_all_companies df now ≠ [] →
        save_prospects_csv old (analyze_all_companies df now) =
          (analyze_all_companies df now).map flattenProspect) := by
  refine ⟨?_, ?_, ?_, ?_⟩
  · intro df now
    exact sortByScoreDesc_perm (prospectRows df now)
  · intro df now
    exact sortByScoreDesc_pairwise (prospectRows df now)
  · intro df now s
    exact filter_sortByScoreDesc s (prospectRows df now)
  · intro df now old hne
    unfold save_prospects_csv
    rw [if_neg]
    intro hempty
    exact hne (List.isEmpty_iff.mp hempty)

/-- C10 witness: on the worked-example store the sorted rows are persisted in
order over a stale file. -/
theorem C10_witness :
    save_prospects_csv [staleProspectRow] (analyze_all_companies exampleStore 100) =
      (analyze_all_companies exampleStore 100).map flattenProspect :=
  C10_prospects_sorted.2.2.2 exampleStore 100 [staleProspectRow] (by decide)

end Treasury
